import Mathlib

/-!
Verification of the effect-inference walker of the quint compiler
(`src/quint/src/effects/inferrer.ts`).

The walker (`EffectInferrer`) is embedded from the source file.  The helper
modules it imports (`effects/base`, `effects/substitutions`,
`effects/builtinSignatures`, `errorTree`, `FreshVarGenerator`, `IRVisitor`)
are not part of the sources at hand; their definitions below are modelled
from the specification (sections 3, 4.2, 4.3, 4.4, 4.5 and 7) and each such
definition carries a doc comment saying so.
-/

set_option maxRecDepth 10000

namespace QuintEffects

/-- Result type mirroring the sweet-monads `Either` used throughout the
inferrer: `left` carries a failure, `right` a success. -/
inductive Either (L : Type) (R : Type) where
| left (l : L)
| right (r : R)

def Either.map {L R R2 : Type} (f : R → R2) : Either L R → Either L R2
| .left l => .left l
| .right r => .right (f r)

def Either.mapLeft {L L2 R : Type} (f : L → L2) : Either L R → Either L2 R
| .left l => .left (f l)
| .right r => .right r

def Either.bind {L R R2 : Type} : Either L R → (R → Either L R2) → Either L R2
| .left l, _ => .left l
| .right r, f => f r

instance {L : Type} : Monad (Either L) where
  pure := Either.right
  bind := Either.bind

def Either.isRight {L R : Type} : Either L R → Bool
| .left _ => false
| .right _ => true

/-- Modelled from the spec: `ErrorTree` (section 3) is a node carrying a
human-readable message, a location description and an ordered list of child
trees.  The source imports it from `../errorTree`, which is not among the
sources at hand. -/
inductive ErrorTree where
| node (location : String) (message : String) (children : List ErrorTree)

/-- Modelled from the spec: an error value handed to `addToResults` is either
a single `ErrorTree` or a list of them (the source's `Error` union type from
`../errorTree`). -/
inductive Err where
| one (t : ErrorTree)
| many (ts : List ErrorTree)

/-- Modelled from the spec (section 7): a leaf error with a location frame. -/
def buildErrorLeaf (location : String) (message : String) : ErrorTree :=
  .node location message []

/-- Modelled from the spec (section 7): wrapping an error with the location
description active when it was raised; children become subtrees. -/
def buildErrorTree (location : String) (e : Err) : ErrorTree :=
  match e with
  | .one t => .node location "" [t]
  | .many ts => .node location "" ts

/-- Modelled from the spec (section 7): internal invariant violations are
signalled by a non-recoverable fault distinct from the `ErrorTree` taxonomy
(the source throws a JavaScript `Error`). -/
inductive Fatal where
| fatal (msg : String)

/-- A state-variable reference inside a concrete entity: variable name plus
the identity of its defining node (source `exitVar`, line 114). -/
structure StateVariable where
  name : String
  reference : Nat
deriving DecidableEq

/-- Modelled from the spec (section 3): the `Entity` term algebra with
`concrete`, `quantified` and `union` variants. -/
inductive Entity where
| concrete (stateVariables : List StateVariable)
| quantified (name : String)
| union (entities : List Entity)

/-- Direction tag of an effect component (spec section 3). -/
inductive ComponentKind where
| read
| update
| temporal
deriving DecidableEq

/-- One component of a concrete effect: a direction tag paired with an
entity (spec section 3). -/
structure Component where
  kind : ComponentKind
  entity : Entity

/-- Modelled from the spec (section 3): the `Effect` term algebra with
`concrete`, `variable` and `arrow` variants (`variable'` stands for the
source's `variable` kind). -/
inductive Effect where
| concrete (components : List Component)
| variable' (name : String)
| arrow (params : List Effect) (result : Effect)

/-- Modelled from the spec (section 3): a solved effect together with the
effect-variable and entity-variable names free within it. -/
structure EffectScheme where
  effect : Effect
  effectVariables : List String
  entityVariables : List String

/-- Modelled from the spec (section 3): one binding of a substitution, from
an effect variable to an `Effect` or from an entity variable to an
`Entity`. -/
inductive Subst where
| effectSub (name : String) (value : Effect)
| entitySub (name : String) (value : Entity)

/-- Modelled from the spec (section 3): an ordered sequence of bindings. -/
abbrev Substitutions := List Subst

/- ----------------------------------------------------------------
Free-variable collection (spec section 4.1, the source's `effectNames`).
---------------------------------------------------------------- -/

mutual

/-- Modelled from the spec (section 4.1): entity-variable names free in an
entity. -/
def entityNamesE : Entity → List String
| .concrete _ => []
| .quantified n => [n]
| .union es => entityNamesL es

def entityNamesL : List Entity → List String
| [] => []
| e :: es => entityNamesE e ++ entityNamesL es

end

def componentNames : List Component → List String
| [] => []
| c :: cs => entityNamesE c.entity ++ componentNames cs

mutual

/-- Modelled from the spec (section 4.1): the effect-variable and
entity-variable names free in an effect, in traversal order. -/
def effectNamesE : Effect → List String × List String
| .concrete comps => ([], componentNames comps)
| .variable' n => ([n], [])
| .arrow ps r =>
    let a := effectNamesL ps
    let b := effectNamesE r
    (a.1 ++ b.1, a.2 ++ b.2)

def effectNamesL : List Effect → List String × List String
| [] => ([], [])
| e :: es =>
    let a := effectNamesE e
    let b := effectNamesL es
    (a.1 ++ b.1, a.2 ++ b.2)

end

/-- Modelled from the spec (section 4.1): `freeNames`, deduplicated. -/
def effectNames (e : Effect) : List String × List String :=
  let ns := effectNamesE e
  (ns.1.eraseDups, ns.2.eraseDups)

/-- Modelled from the spec (section 4.4): `generalize` wraps the effect
together with its free names (the source's `toScheme` from
`effects/base`). -/
def toScheme (e : Effect) : EffectScheme :=
  { effect := e
    effectVariables := (effectNames e).1
    entityVariables := (effectNames e).2 }

/- ----------------------------------------------------------------
Occurrence checks used by substitution application and unification.
---------------------------------------------------------------- -/

mutual

/-- Whether the entity variable `n` occurs in an entity. -/
def entityHasVar (n : String) : Entity → Bool
| .concrete _ => false
| .quantified m => m == n
| .union es => entityHasVarL n es

def entityHasVarL (n : String) : List Entity → Bool
| [] => false
| e :: es => entityHasVar n e || entityHasVarL n es

end

def componentsHaveVar (n : String) : List Component → Bool
| [] => false
| c :: cs => entityHasVar n c.entity || componentsHaveVar n cs

mutual

/-- Whether the effect variable `n` occurs in an effect. -/
def effectHasEffectVar (n : String) : Effect → Bool
| .concrete _ => false
| .variable' m => m == n
| .arrow ps r => effectHasEffectVarL n ps || effectHasEffectVar n r

def effectHasEffectVarL (n : String) : List Effect → Bool
| [] => false
| e :: es => effectHasEffectVar n e || effectHasEffectVarL n es

end

/- ----------------------------------------------------------------
Substitution engine (spec section 4.2).
---------------------------------------------------------------- -/

def findEffectSub : Substitutions → String → Option Effect
| [], _ => none
| .effectSub m v :: rest, n => if m == n then some v else findEffectSub rest n
| .entitySub _ _ :: rest, n => findEffectSub rest n

def findEntitySub : Substitutions → String → Option Entity
| [], _ => none
| .entitySub m v :: rest, n => if m == n then some v else findEntitySub rest n
| .effectSub _ _ :: rest, n => findEntitySub rest n

/-- Error reported when applying a substitution hits an invalid
self-referential binding (spec section 4.2). -/
def selfRefError (n : String) : ErrorTree :=
  buildErrorLeaf ("Applying substitution to variable " ++ n)
    ("Invalid self-referential binding for " ++ n)

mutual

/-- Modelled from the spec (section 4.2): `apply` on entities — replace each
bound entity variable by its bound value; unresolved variables pass through;
fails only on an invalid (properly self-referential) binding. -/
def applySubEntity (su : Substitutions) : Entity → Either ErrorTree Entity
| .concrete svs => .right (.concrete svs)
| .quantified n =>
    match findEntitySub su n with
    | none => .right (.quantified n)
    | some v =>
      match v with
      | .quantified m => .right (.quantified m)
      | _ => if entityHasVar n v then .left (selfRefError n) else .right v
| .union es => (applySubEntityL su es).map .union

def applySubEntityL (su : Substitutions) : List Entity → Either ErrorTree (List Entity)
| [] => .right []
| e :: es =>
    match applySubEntity su e with
    | .left err => .left err
    | .right e' => (applySubEntityL su es).map (fun es' => e' :: es')

end

def applySubComponents (su : Substitutions) : List Component → Either ErrorTree (List Component)
| [] => .right []
| c :: cs =>
    match applySubEntity su c.entity with
    | .left err => .left err
    | .right ent => (applySubComponents su cs).map (fun cs' => ⟨c.kind, ent⟩ :: cs')

mutual

/-- Modelled from the spec (section 4.2): `apply` on effects — recursively
rewrites the term, replacing every occurrence of a bound variable with its
bound value; unresolved variables pass through unchanged; fails only on an
invalid (properly self-referential) binding. -/
def applySubstitution (su : Substitutions) : Effect → Either ErrorTree Effect
| .concrete cs => (applySubComponents su cs).map .concrete
| .variable' n =>
    match findEffectSub su n with
    | none => .right (.variable' n)
    | some v =>
      match v with
      | .variable' m => .right (.variable' m)
      | _ => if effectHasEffectVar n v then .left (selfRefError n) else .right v
| .arrow ps r =>
    match applySubstitutionL su ps with
    | .left err => .left err
    | .right ps' => (applySubstitution su r).map (fun r' => .arrow ps' r')

def applySubstitutionL (su : Substitutions) : List Effect → Either ErrorTree (List Effect)
| [] => .right []
| e :: es =>
    match applySubstitution su e with
    | .left err => .left err
    | .right e' => (applySubstitutionL su es).map (fun es' => e' :: es')

end

def bindsSameVar (a b : Subst) : Bool :=
  match a, b with
  | .effectSub n _, .effectSub m _ => n == m
  | .entitySub n _, .entitySub m _ => n == m
  | _, _ => false

def rewriteSubst (newer : Substitutions) : Subst → Either ErrorTree Subst
| .effectSub n v => (applySubstitution newer v).map (fun v' => .effectSub n v')
| .entitySub n v => (applySubEntity newer v).map (fun v' => .entitySub n v')

def rewriteAll (newer : Substitutions) : Substitutions → Either ErrorTree Substitutions
| [] => .right []
| b :: bs =>
    match rewriteSubst newer b with
    | .left e => .left e
    | .right b' => (rewriteAll newer bs).map (fun bs' => b' :: bs')

/-- Modelled from the spec (section 4.2): `compose(older, newer)` applies
`newer` to every value inside `older`'s bindings, then appends `newer`'s
bindings whose variables are not already bound by the rewritten `older`. -/
def compose (older newer : Substitutions) : Either ErrorTree Substitutions :=
  (rewriteAll newer older).map
    (fun rw => rw ++ newer.filter (fun b => !(rw.any (fun c => bindsSameVar c b))))

/- ----------------------------------------------------------------
Structural equality of terms (spec section 4.1).
---------------------------------------------------------------- -/

mutual

def eqEntity : Entity → Entity → Bool
| .concrete a, .concrete b => a == b
| .quantified a, .quantified b => a == b
| .union a, .union b => eqEntityL a b
| _, _ => false

def eqEntityL : List Entity → List Entity → Bool
| [], [] => true
| a :: as', b :: bs' => eqEntity a b && eqEntityL as' bs'
| _, _ => false

end

def eqComponents (a b : List Component) : Bool :=
  match a, b with
  | [], [] => true
  | c :: cs, d :: ds => c.kind == d.kind && eqEntity c.entity d.entity && eqComponents cs ds
  | _, _ => false

mutual

def eqEffect : Effect → Effect → Bool
| .concrete a, .concrete b => eqComponents a b
| .variable' a, .variable' b => a == b
| .arrow ps1 r1, .arrow ps2 r2 => eqEffectL ps1 ps2 && eqEffect r1 r2
| _, _ => false

def eqEffectL : List Effect → List Effect → Bool
| [], [] => true
| a :: as', b :: bs' => eqEffect a b && eqEffectL as' bs'
| _, _ => false

end

/- ----------------------------------------------------------------
Unifier (spec section 4.3).  It is modelled from the spec because the
source's `unify` lives in `effects/base`, which is not among the sources at
hand.  The `fuel` argument bounds the recursion; the spec argues termination
by a decreasing term size, which the fuel makes explicit.  No theorem below
evaluates the unifier: the claims only exercise walker paths that fail or
skip before unification.
---------------------------------------------------------------- -/

def unifyFuelError : ErrorTree :=
  buildErrorLeaf ("Unifying") ("Unification ran out of fuel")

def occursError (n : String) : ErrorTree :=
  buildErrorLeaf ("Unifying") ("Occurs check: cannot bind " ++ n ++ " to a term containing it")

def kindMismatchError : ErrorTree :=
  buildErrorLeaf ("Unifying") ("Cannot unify terms of different kinds")

def svSetEq (a b : List StateVariable) : Bool :=
  a.all (fun x => b.contains x) && b.all (fun x => a.contains x)

def unionFlatten : List Entity → Option (List StateVariable)
| [] => some []
| .concrete xs :: rest => (unionFlatten rest).map (fun ys => xs ++ ys)
| _ => none

/-- Modelled from the spec (section 4.3, cases 2, 3 and 6): unify two entity
terms. -/
def unifyEntities : Entity → Entity → Either ErrorTree Substitutions
| a, b =>
  if eqEntity a b then .right [] else
  match a, b with
  | .quantified n, other =>
      if entityHasVar n other then .left (occursError n) else .right [.entitySub n other]
  | other, .quantified n =>
      if entityHasVar n other then .left (occursError n) else .right [.entitySub n other]
  | .concrete xs, .concrete ys =>
      if svSetEq xs ys then .right []
      else .left (buildErrorLeaf ("Unifying") ("Entity sets are not equal"))
  | .concrete xs, .union es =>
      match unionFlatten es with
      | some ys => if svSetEq xs ys then .right []
                   else .left (buildErrorLeaf ("Unifying") ("Union does not resolve to the same set"))
      | none => .left (buildErrorLeaf ("Unifying") ("Cannot resolve union entity"))
  | .union es, .concrete xs =>
      match unionFlatten es with
      | some ys => if svSetEq xs ys then .right []
                   else .left (buildErrorLeaf ("Unifying") ("Union does not resolve to the same set"))
      | none => .left (buildErrorLeaf ("Unifying") ("Cannot resolve union entity"))
  | _, _ => .left kindMismatchError

def unifyEntityPairs : List (Entity × Entity) → Substitutions → Either ErrorTree Substitutions
| [], acc => .right acc
| (a, b) :: rest, acc =>
    match applySubEntity acc a, applySubEntity acc b with
    | .right a', .right b' =>
        match unifyEntities a' b' with
        | .left e => .left e
        | .right s =>
            match compose acc s with
            | .left e => .left e
            | .right acc' => unifyEntityPairs rest acc'
    | .left e, _ => .left e
    | _, .left e => .left e

def entitiesOfKind (k : ComponentKind) (cs : List Component) : List Entity :=
  cs.filterMap (fun c => if c.kind == k then some c.entity else none)

/-- Modelled from the spec (section 4.3, case 5): two concrete effects unify
when their direction-tag multisets agree; the entities of each direction are
then unified pairwise, threading the substitution. -/
def unifyConcrete (c1 c2 : List Component) : Either ErrorTree Substitutions :=
  let kinds : List ComponentKind := [.read, .update, .temporal]
  if kinds.all (fun k => (entitiesOfKind k c1).length == (entitiesOfKind k c2).length) then
    unifyEntityPairs
      (kinds.flatMap (fun k => (entitiesOfKind k c1).zip (entitiesOfKind k c2))) []
  else .left (buildErrorLeaf ("Unifying") ("Effect components do not match"))

mutual

/-- Modelled from the spec (section 4.3): `unify(left, right)` with the
case precedence 1-7 listed there. -/
def unifyEffects : Nat → Effect → Effect → Either ErrorTree Substitutions
| 0, _, _ => .left unifyFuelError
| fuel + 1, a, b =>
  if eqEffect a b then .right [] else
  match a, b with
  | .variable' n, other =>
      if effectHasEffectVar n other then .left (occursError n) else .right [.effectSub n other]
  | other, .variable' n =>
      if effectHasEffectVar n other then .left (occursError n) else .right [.effectSub n other]
  | .arrow ps1 r1, .arrow ps2 r2 =>
      if ps1.length == ps2.length then
        unifyArrows fuel (ps1.zip ps2) r1 r2 []
      else .left (buildErrorLeaf ("Unifying") ("Arity mismatch"))
  | .concrete c1, .concrete c2 => unifyConcrete c1 c2
  | _, _ => .left kindMismatchError

/-- Spec section 4.3, case 4: unify arrow parameters pairwise left to right,
threading the accumulated substitution, then unify the results under it. -/
def unifyArrows : Nat → List (Effect × Effect) → Effect → Effect → Substitutions →
    Either ErrorTree Substitutions
| fuel, [], r1, r2, acc =>
    match applySubstitution acc r1, applySubstitution acc r2 with
    | .right r1', .right r2' =>
        match unifyEffects fuel r1' r2' with
        | .left e => .left e
        | .right s => compose acc s
    | .left e, _ => .left e
    | _, .left e => .left e
| fuel, (p1, p2) :: rest, r1, r2, acc =>
    match applySubstitution acc p1, applySubstitution acc p2 with
    | .right p1', .right p2' =>
        match unifyEffects fuel p1' p2' with
        | .left e => .left e
        | .right s =>
            match compose acc s with
            | .left e => .left e
            | .right acc' => unifyArrows fuel rest r1 r2 acc'
    | .left e, _ => .left e
    | _, .left e => .left e

end

def effSize : Effect → Nat
| .concrete _ => 1
| .variable' _ => 1
| .arrow ps r => 1 + ps.length + effSize r

/-- Modelled from the spec (section 4.3): the unifier entry point; the fuel
is a bound on the spec's decreasing term-size measure. -/
def unify (e1 e2 : Effect) : Either ErrorTree Substitutions :=
  unifyEffects ((effSize e1 + effSize e2 + 1) * (effSize e1 + effSize e2 + 1)) e1 e2

/- ----------------------------------------------------------------
Builtin signature table (spec section 4.5).
---------------------------------------------------------------- -/

/-- A builtin signature constructor: given the arity, an effect scheme
(source `Signature` in `effects/base`). -/
abbrev Signature := Nat → EffectScheme

/-- Modelled from the spec (section 4.5): the standard-propagation signature
of arity `n` — an arrow whose parameter effects read and temporal entity
variables and whose result is the union of them (the comment in `exitConst`
spells it `propagateComponents(['read', 'temporal'])(n)`). -/
def standardPropagation (arity : Nat) : EffectScheme :=
  let idx := List.range arity
  let readVars := idx.map (fun i => "r" ++ toString i)
  let tempVars := idx.map (fun i => "t" ++ toString i)
  let params := idx.map (fun i =>
    Effect.concrete
      [⟨.read, .quantified ("r" ++ toString i)⟩, ⟨.temporal, .quantified ("t" ++ toString i)⟩])
  let result :=
    Effect.concrete
      [⟨.read, .union (readVars.map .quantified)⟩, ⟨.temporal, .union (tempVars.map .quantified)⟩]
  { effect := .arrow params result
    effectVariables := []
    entityVariables := readVars ++ tempVars }

/-- Modelled from the spec (section 4.5): a bespoke assignment-like
signature introducing an `update` component. -/
def assignSignature : Signature :=
  fun _ =>
    { effect := .arrow
        [.concrete [⟨.read, .quantified ("v1")⟩], .concrete [⟨.read, .quantified ("v2")⟩]]
        (.concrete [⟨.update, .quantified ("v1")⟩])
      effectVariables := []
      entityVariables := ["v1", "v2"] }

/-- Modelled from the spec (section 4.5): the builtin table maps operator
names to signature constructors; most entries follow standard propagation, a
handful (assignment-like constructs) are bespoke.  Its exact content is out
of scope; representative entries stand in for it. -/
def getSignatures : List (String × Signature) :=
  [("iadd", fun n => standardPropagation n),
   ("and", fun n => standardPropagation n),
   ("assign", assignSignature)]

def lookupSig (name : String) : Option Signature :=
  (getSignatures.find? (fun p => p.1 == name)).map (fun p => p.2)

/- ----------------------------------------------------------------
The IR (spec section 6): definitions and expressions are tagged-variant
nodes carrying stable integer identities.  Modelled from the spec — the IR
types live in `quintIr.ts`, outside the sources at hand — with exactly the
fields the inferrer reads.
---------------------------------------------------------------- -/

/-- Modelled from the spec: the slice of `QuintType` the inferrer inspects —
`exitConst` only asks whether the annotation is an operator type and how
many arguments it takes. -/
inductive QuintType where
| oper (args : List QuintType) (res : QuintType)
| scalar (name : String)

/-- A lambda parameter: identity plus name (`p.id`, `p.name` in
`enterLambda`). -/
structure QuintLambdaParam where
  id : Nat
  name : String

mutual

/-- Modelled from the spec (section 6): expression nodes. -/
inductive QuintEx where
| name (id : Nat) (name : String)
| bool (id : Nat) (value : Bool)
| int (id : Nat) (value : Int)
| str (id : Nat) (value : String)
| app (id : Nat) (opcode : String) (args : List QuintEx)
| lambda (id : Nat) (params : List QuintLambdaParam) (expr : QuintEx)
| letE (id : Nat) (opdef : QuintOpDef) (expr : QuintEx)

/-- An operator definition `def op = expr`. -/
inductive QuintOpDef where
| mk (id : Nat) (name : String) (expr : QuintEx)

/-- Modelled from the spec (section 6): top-level definitions. -/
inductive QuintDef where
| const (id : Nat) (name : String) (typeAnn : QuintType)
| var' (id : Nat) (name : String)
| op (d : QuintOpDef)

end

def QuintEx.exid : QuintEx → Nat
| .name i _ => i
| .bool i _ => i
| .int i _ => i
| .str i _ => i
| .app i _ _ => i
| .lambda i _ _ => i
| .letE i _ _ => i

/-- Modelled from the spec: pretty-printing of expressions is out of scope
(`expressionToString` lives in `IRprinting.ts`); location descriptions are
free text, so a compact rendering stands in for it. -/
def expressionToString : QuintEx → String
| .name _ n => n
| .bool _ b => toString b
| .int _ i => toString i
| .str _ s => s
| .app _ op _ => op ++ "(...)"
| .lambda _ _ _ => "(... => ...)"
| .letE _ _ _ => "let ... in ..."

/- ----------------------------------------------------------------
Per-run inference state (spec section 3, source fields of
`EffectInferrer`).
---------------------------------------------------------------- -/

/-- Modelled from the spec (section 6): the lookup table maps the identity
of a name occurrence to the identity of the declaration it resolves to; an
entry may lack the reference (`def?.reference` in the source). -/
abbrev LookupTable := List (Nat × Option Nat)

/-- Association-list rendering of a JavaScript `Map`: `set` overwrites an
existing key in place or appends, `get` finds the first matching key. -/
def mset {α : Type} (m : List (Nat × α)) (k : Nat) (v : α) : List (Nat × α) :=
  match m with
  | [] => [(k, v)]
  | p :: rest => if p.1 == k then (k, v) :: rest else p :: mset rest k v

def mget {α : Type} (m : List (Nat × α)) (k : Nat) : Option α :=
  match m with
  | [] => none
  | p :: rest => if p.1 == k then some p.2 else mget rest k

/-- The per-run state of `EffectInferrer`: the two result maps, the running
substitution, the fresh-variable counter (spec section 3 models
`FreshVarGenerator` as one monotonically increasing run-scoped counter) and
the location description, plus the lookup table handed to the
constructor. -/
structure InferState where
  lookupTable : LookupTable
  effects : List (Nat × EffectScheme)
  errors : List (Nat × ErrorTree)
  substitutions : Substitutions
  counter : Nat
  location : String

/-- Modelled from the spec (sections 3 and 4.4): a fresh variable is the tag
followed by the next counter value; the tag keeps effect-fresh names and
entity-fresh names from colliding. -/
def freshVar (s : InferState) (tag : String) : InferState × String :=
  ({ s with counter := s.counter + 1 }, tag ++ toString s.counter)

/-- Source `EffectInferrer.addToResults` (lines 309-313): a failure goes to
the error map wrapped with the current location, a success to the effect
map; the other map is left untouched. -/
def addToResults (s : InferState) (exprId : Nat) (result : Either Err EffectScheme) : InferState :=
  match result with
  | .left err => { s with errors := mset s.errors exprId (buildErrorTree s.location err) }
  | .right r => { s with effects := mset s.effects exprId r }

/-- Source `EffectInferrer.fetchResult` (lines 315-325): look an identity up
in the two result maps, the error map first; an identity in neither map is
an internal invariant violation and raises a non-recoverable fault. -/
def fetchResult (s : InferState) (id : Nat) : Either Fatal (Either ErrorTree EffectScheme) :=
  match mget s.errors id with
  | some failed => .right (.left failed)
  | none =>
    match mget s.effects id with
    | some succ => .right (.right succ)
    | none =>
      .left (.fatal ("Could not find any result for id " ++ toString id ++ " while " ++ s.location))

def freshSubsE (s : InferState) : List String → InferState × Substitutions
| [] => (s, [])
| n :: ns =>
    let p := freshVar s ("e")
    let rest := freshSubsE p.1 ns
    (rest.1, Subst.effectSub n (.variable' p.2) :: rest.2)

def freshSubsV (s : InferState) : List String → InferState × Substitutions
| [] => (s, [])
| n :: ns =>
    let p := freshVar s ("v")
    let rest := freshSubsV p.1 ns
    (rest.1, Subst.entitySub n (.quantified p.2) :: rest.2)

/-- Source `EffectInferrer.newInstance` (lines 347-362): build substitutions
mapping each of the scheme's free effect and entity variables to a fresh
variable and apply their composition to the scheme's effect; a failure of
that application is an internal fault (the source throws). -/
def newInstance (s : InferState) (sch : EffectScheme) : Either Fatal (InferState × Effect) :=
  let a := freshSubsE s sch.effectVariables
  let b := freshSubsV a.1 sch.entityVariables
  match compose a.2 b.2 with
  | .left _ => .left (.fatal ("Error applying fresh names substitution"))
  | .right su =>
    match applySubstitution su sch.effect with
    | .left _ => .left (.fatal ("Error applying fresh names substitution"))
    | .right eff => .right (b.1, eff)

/-- Source `EffectInferrer.effectForName` (lines 327-345): builtin names get
a fresh instance of their signature; otherwise the lookup table resolves the
occurrence to a declaration whose recorded scheme is fetched and
instantiated; a name with neither produces an error (the `some 0` row
mirrors the source's `!id` test, under which a zero reference is falsy). -/
def effectForName (s : InferState) (name : String) (nameId : Nat) (arity : Nat) :
    Either Fatal (InferState × Either ErrorTree Effect) :=
  match lookupSig name with
  | some signatureFunction =>
      match newInstance s (signatureFunction arity) with
      | .left f => .left f
      | .right (s', eff) => .right (s', .right eff)
  | none =>
    match mget s.lookupTable nameId with
    | none => .right (s, .left (buildErrorLeaf s.location ("Signature not found for name: " ++ name)))
    | some none =>
        .right (s, .left (buildErrorLeaf s.location ("Signature not found for name: " ++ name)))
    | some (some i) =>
      if i == 0 then
        .right (s, .left (buildErrorLeaf s.location ("Signature not found for name: " ++ name)))
      else
        match fetchResult s i with
        | .left f => .left f
        | .right (.left e) => .right (s, .left e)
        | .right (.right sch) =>
          match newInstance s sch with
          | .left f => .left f
          | .right (s', eff) => .right (s', .right eff)

/- ----------------------------------------------------------------
The inference rules, one per node kind (source `EffectInferrer`, the walker
of spec section 4.6).
---------------------------------------------------------------- -/

/-- Source `enterExpr` (lines 85-87): remember a location description for
error traces. -/
def enterExpr (s : InferState) (e : QuintEx) : InferState :=
  { s with location := "Inferring effect for " ++ expressionToString e }

/-- Source `exitConst` (lines 89-106): an operator-typed constant gets the
standard-propagation arrow of its arity, any other constant is `Pure`. -/
def exitConst (s : InferState) (id : Nat) (typeAnn : QuintType) : InferState :=
  match typeAnn with
  | .oper args _ => addToResults s id (.right (standardPropagation args.length))
  | _ => addToResults s id (.right (toScheme (.concrete [])))

/-- Source `exitVar` (lines 110-118): a state-variable declaration `v` gets
the concrete effect with the single component `read {v}`. -/
def exitVar (s : InferState) (id : Nat) (name : String) : InferState :=
  addToResults s id
    (.right (toScheme (.concrete [⟨.read, .concrete [⟨name, id⟩]⟩])))

/-- Source `exitName` (lines 123-129): skipped once the error map is
non-empty; otherwise the name's effect is resolved and recorded. -/
def exitName (s : InferState) (id : Nat) (name : String) : Either Fatal InferState :=
  if s.errors.isEmpty then
    match effectForName s name id 2 with
    | .left f => .left f
    | .right (s', r) => .right (addToResults s' id ((r.mapLeft Err.one).map toScheme))
  else .right s

/-- Source `exitLiteral` (lines 198-208): literals are always `Pure`. -/
def exitLiteral (s : InferState) (id : Nat) : InferState :=
  addToResults s id (.right (toScheme (.concrete [])))

/-- Source `exitOpDef` (lines 213-222): skipped once the error map is
non-empty; otherwise the body expression's result is forwarded as the
definition's result. -/
def exitOpDef (s : InferState) (id : Nat) (body : QuintEx) : Either Fatal InferState :=
  if s.errors.isEmpty then
    match fetchResult s body.exid with
    | .left f => .left f
    | .right r => .right (addToResults s id (r.mapLeft Err.one))
  else .right s

/-- Source `exitLet` (lines 227-235): skipped once the error map is
non-empty; otherwise the body expression's result is forwarded as the let
expression's result. -/
def exitLet (s : InferState) (id : Nat) (body : QuintEx) : Either Fatal InferState :=
  if s.errors.isEmpty then
    match fetchResult s body.exid with
    | .left f => .left f
    | .right r => .right (addToResults s id (r.mapLeft Err.one))
  else .right s

/-- Source `enterLambda` (lines 245-250): each parameter is bound to an
effect variable `e_<name>_<id>`, or to a fresh variable when the parameter
is the anonymous placeholder. -/
def enterLambda (s : InferState) (params : List QuintLambdaParam) : InferState :=
  params.foldl
    (fun st p =>
      let q := if p.name == "_" then freshVar st ("e") else (st, "e_" ++ p.name ++ "_" ++ toString p.id)
      addToResults q.1 p.id (.right (toScheme (.variable' q.2))))
    s

/-- Source `exitApp` argument processing (lines 142-146): fetch each
argument's recorded result in order and instantiate the successful ones. -/
def exitAppArgs (s : InferState) : List QuintEx →
    Either Fatal (InferState × List (Either ErrorTree Effect))
| [] => .right (s, [])
| a :: rest =>
    match fetchResult s a.exid with
    | .left f => .left f
    | .right (.left e) =>
        match exitAppArgs s rest with
        | .left f => .left f
        | .right (s', rs) => .right (s', .left e :: rs)
    | .right (.right sch) =>
        match newInstance s sch with
        | .left f => .left f
        | .right (s1, eff) =>
            match exitAppArgs s1 rest with
            | .left f => .left f
            | .right (s', rs) => .right (s', .right eff :: rs)

/-- The sweet-monads `mergeInMany`: all successes, or the list of all
failures. -/
def mergeInMany {α : Type} (xs : List (Either ErrorTree α)) : Either (List ErrorTree) (List α) :=
  let lefts := xs.filterMap (fun x => match x with | .left e => some e | .right _ => none)
  if lefts.isEmpty then
    .right (xs.filterMap (fun x => match x with | .right r => some r | .left _ => none))
  else .left lefts

/-- Source `exitApp` (lines 135-195): skipped once the error map is
non-empty; otherwise the callee's signature is unified against an arrow
built from the instantiated argument effects and a fresh result variable;
on success the substitution is stored, every argument's effect republished
under it and the result recorded; any failure is recorded at the
application node. -/
def exitApp (s : InferState) (id : Nat) (opcode : String) (args : List QuintEx) :
    Either Fatal InferState :=
  if s.errors.isEmpty then
    let s := { s with location :=
      "Trying to infer effect for operator application in " ++
        expressionToString (.app id opcode args) }
    match exitAppArgs s args with
    | .left f => .left f
    | .right (s1, rs) =>
      let paramsResult := mergeInMany rs
      let q := freshVar s1 ("e")
      let resultEffect : Effect := .variable' q.2
      let arrowEffect : Either (List ErrorTree) Effect :=
        paramsResult.map (fun ps => .arrow ps resultEffect)
      match effectForName q.1 opcode id args.length with
      | .left f => .left f
      | .right (s2, sigR) =>
        match sigR.mapLeft (fun e => buildErrorTree s2.location (.one e)) with
        | .left err => .right (addToResults s2 id (.left (.one err)))
        | .right signature =>
          let substitution : Either Err Substitutions :=
            match arrowEffect with
            | .left es => .left (.many es)
            | .right eff => (unify signature eff).mapLeft .one
          match substitution.bind (fun su => (compose s2.substitutions su).mapLeft .one) with
          | .left err => .right (addToResults s2 id (.left err))
          | .right su =>
            let s3 := { s2 with substitutions := su }
            let s4 :=
              match paramsResult with
              | .left _ => s3
              | .right effs =>
                  (effs.zip (args.map QuintEx.exid)).foldl
                    (fun st pr =>
                      addToResults st pr.2
                        (((applySubstitution su pr.1).mapLeft Err.one).map toScheme))
                    s3
            match applySubstitution su resultEffect with
            | .left err => .right (addToResults s4 id (.left (.one err)))
            | .right eff => .right (addToResults s4 id (.right (toScheme eff)))
  else .right s

/-- Source `exitLambda` parameter processing (lines 260-269): fetch each
parameter's bound variable, instantiate it, apply the running substitution
and republish it. -/
def exitLambdaParams (s : InferState) : List QuintLambdaParam →
    Either Fatal (InferState × List (Either ErrorTree Effect))
| [] => .right (s, [])
| p :: rest =>
    match fetchResult s p.id with
    | .left f => .left f
    | .right (.left e) =>
        let st := addToResults s p.id (.left (.one e))
        match exitLambdaParams st rest with
        | .left f => .left f
        | .right (s', rs) => .right (s', .left e :: rs)
    | .right (.right sch) =>
        match newInstance s sch with
        | .left f => .left f
        | .right (s1, eff) =>
            match applySubstitution s1.substitutions eff with
            | .left e =>
                let st := addToResults s1 p.id (.left (.one e))
                match exitLambdaParams st rest with
                | .left f => .left f
                | .right (s', rs) => .right (s', .left e :: rs)
            | .right eff' =>
                let st := addToResults s1 p.id (.right (toScheme eff'))
                match exitLambdaParams st rest with
                | .left f => .left f
                | .right (s', rs) => .right (s', .right eff' :: rs)

/-- Source `exitLambda` result pipeline (lines 259-278): the body's scheme
extended into an arrow over the parameter effects, freshly instantiated and
resolved under the running substitution. -/
def lambdaResolvedResult (s : InferState) (params : List QuintLambdaParam) (bodyId : Nat) :
    Either Fatal (InferState × Either Err Effect) :=
  match fetchResult s bodyId with
  | .left f => .left f
  | .right exprResult =>
    match exitLambdaParams s params with
    | .left f => .left f
    | .right (s1, rs) =>
      match exprResult with
      | .left e => .right (s1, .left (.one e))
      | .right resultScheme =>
        match mergeInMany rs with
        | .left es => .right (s1, .left (.many es))
        | .right paramEffs =>
          let sch : EffectScheme := { resultScheme with effect := .arrow paramEffs resultScheme.effect }
          match newInstance s1 sch with
          | .left f => .left f
          | .right (s2, inst) =>
            match applySubstitution s2.substitutions inst with
            | .left e => .right (s2, .left (.one e))
            | .right eff => .right (s2, .right eff)

def isArrow : Effect → Bool
| .arrow _ _ => true
| _ => false

/-- The union of the variable names of the parameter effects, in insertion
order without duplicates (source lines 292-301). -/
def nonFreeNames (params : List Effect) : List String × List String :=
  params.foldl
    (fun acc p =>
      let ns := effectNames p
      (acc.1 ++ ns.1.filter (fun n => !acc.1.contains n),
       acc.2 ++ ns.2.filter (fun n => !acc.2.contains n)))
    ([], [])

/-- Source `exitLambda` (lines 255-307): skipped once the error map is
non-empty; otherwise the resolved arrow is generalized over the parameter
variable names and recorded for the lambda node; if its result component is
itself an arrow, an illegal operator-valued-result error is first recorded
at the lambda's body node; a resolved non-arrow is an internal fault. -/
def exitLambda (s : InferState) (lamId : Nat) (params : List QuintLambdaParam) (body : QuintEx) :
    Either Fatal InferState :=
  if s.errors.isEmpty then
    match lambdaResolvedResult s params body.exid with
    | .left f => .left f
    | .right (s2, .left err) => .right (addToResults s2 lamId (.left err))
    | .right (s2, .right eff) =>
      match eff with
      | .arrow aps ares =>
        let s3 :=
          if isArrow ares then
            addToResults s2 body.exid
              (.left (.one (buildErrorLeaf s2.location ("Result cannot be an opperator"))))
          else s2
        let nf := nonFreeNames aps
        .right (addToResults s3 lamId
          (.right { effect := .arrow aps ares, effectVariables := nf.1, entityVariables := nf.2 }))
      | _ => .left (.fatal ("Arrow effect after substitution should be an arrow"))
  else .right s

/- ----------------------------------------------------------------
The post-order traversal (spec sections 2 and 4.6; the visitor dispatch of
`IRVisitor.ts` is out of scope and modelled from the spec: children first,
`enterExpr` before a node's children, the node's exit rule after them; a
let's operator definition is walked — body first, then its `exitOpDef` rule
— before the let body).
---------------------------------------------------------------- -/

mutual

def walkExpression (s : InferState) : QuintEx → Either Fatal InferState
| .name i n => exitName (enterExpr s (.name i n)) i n
| .bool i v => .right (exitLiteral (enterExpr s (.bool i v)) i)
| .int i v => .right (exitLiteral (enterExpr s (.int i v)) i)
| .str i v => .right (exitLiteral (enterExpr s (.str i v)) i)
| .app i op args =>
    match walkExpressionL (enterExpr s (.app i op args)) args with
    | .left f => .left f
    | .right s1 => exitApp s1 i op args
| .lambda i ps body =>
    match walkExpression (enterLambda (enterExpr s (.lambda i ps body)) ps) body with
    | .left f => .left f
    | .right s1 => exitLambda s1 i ps body
| .letE i (.mk oi od oe) body =>
    match walkExpression (enterExpr s (.letE i (.mk oi od oe) body)) oe with
    | .left f => .left f
    | .right s1 =>
      match exitOpDef s1 oi oe with
      | .left f => .left f
      | .right s2 =>
        match walkExpression s2 body with
        | .left f => .left f
        | .right s3 => exitLet s3 i body

def walkExpressionL (s : InferState) : List QuintEx → Either Fatal InferState
| [] => .right s
| e :: es =>
    match walkExpression s e with
    | .left f => .left f
    | .right s1 => walkExpressionL s1 es

end

/-- The `walkDefinition` dispatch on top-level definitions. -/
def walkDefinition (s : InferState) : QuintDef → Either Fatal InferState
| .const i _ t => .right (exitConst s i t)
| .var' i n => .right (exitVar s i n)
| .op (.mk i _ body) =>
    match walkExpression s body with
    | .left f => .left f
    | .right s1 => exitOpDef s1 i body

def walkDefinitions (s : InferState) : List QuintDef → Either Fatal InferState
| [] => .right s
| d :: ds =>
    match walkDefinition s d with
    | .left f => .left f
    | .right s1 => walkDefinitions s1 ds

/-- The state a freshly constructed `EffectInferrer` starts from. -/
def initState (lookupTable : LookupTable) : InferState :=
  { lookupTable := lookupTable
    effects := []
    errors := []
    substitutions := []
    counter := 0
    location := "" }

/-- Source `EffectInferrer.inferEffects` (lines 66-71): walk every
definition in order and return the error map and the effect map. -/
def inferEffects (lookupTable : LookupTable) (defs : List QuintDef) :
    Either Fatal (List (Nat × ErrorTree) × List (Nat × EffectScheme)) :=
  match walkDefinitions (initState lookupTable) defs with
  | .left f => .left f
  | .right s => .right (s.errors, s.effects)

/- ----------------------------------------------------------------
A concrete two-definition module exercising the operator-valued-result path
of `exitLambda`:

  def g = (x) => x        -- ids:  opdef 1, lambda 2, param 3, name 4
  def k = (y) => g        -- ids:  opdef 5, lambda 6, param 7, name 8

The body of `k`'s lambda is the name `g`, whose recorded effect is an
arrow, so `exitLambda` for lambda 6 flags an illegal operator-valued result
at the body node 8 — which already holds the success entry recorded by
`exitName`.
---------------------------------------------------------------- -/

def cexTable : LookupTable := [(4, some 3), (8, some 1)]

def cexDefG : QuintDef :=
  .op (.mk 1 ("g") (.lambda 2 [⟨3, "x"⟩] (.name 4 ("x"))))

def cexDefK : QuintDef :=
  .op (.mk 5 ("k") (.lambda 6 [⟨7, "y"⟩] (.name 8 ("g"))))

def cexDefs : List QuintDef := [cexDefG, cexDefK]

def cexRun : Either Fatal (List (Nat × ErrorTree) × List (Nat × EffectScheme)) :=
  inferEffects cexTable cexDefs

def cexResult : List (Nat × ErrorTree) × List (Nat × EffectScheme) :=
  match cexRun with
  | .right p => p
  | .left _ => ([], [])

/-- The state of the counterexample run just before `exitLambda` fires for
lambda 6: definition `g` fully processed, lambda 6 entered, its body (the
name `g`, id 8) visited. -/
def lamPre : InferState :=
  match walkDefinition (initState cexTable) cexDefG with
  | .right st =>
    let st := enterExpr st (.lambda 6 [⟨7, "y"⟩] (.name 8 ("g")))
    let st := enterLambda st [⟨7, "y"⟩]
    match walkExpression st (.name 8 ("g")) with
    | .right st2 => st2
    | .left _ => initState cexTable
  | .left _ => initState cexTable

def lamOut : Either Fatal (InferState × Either Err Effect) :=
  lambdaResolvedResult lamPre [⟨7, "y"⟩] 8

def lamS2 : InferState :=
  match lamOut with
  | .right (st, _) => st
  | .left _ => initState cexTable

def lamAps : List Effect :=
  match lamOut with
  | .right (_, .right (.arrow aps _)) => aps
  | _ => []

def lamBps : List Effect :=
  match lamOut with
  | .right (_, .right (.arrow _ (.arrow bps _))) => bps
  | _ => []

def lamBr : Effect :=
  match lamOut with
  | .right (_, .right (.arrow _ (.arrow _ br))) => br
  | _ => .concrete []

/- ----------------------------------------------------------------
Projections of a walker step's outcome, and small concrete states used to
instantiate the theorems below.
---------------------------------------------------------------- -/

def okE (x : Either Fatal InferState) : Bool := x.isRight

def errsOf : Either Fatal InferState → List (Nat × ErrorTree)
| .right st => st.errors
| .left _ => []

def effsOf : Either Fatal InferState → List (Nat × EffectScheme)
| .right st => st.effects
| .left _ => []

/-- A predicate for the `varValued` shape of substitution bindings produced
by `newInstance`: every binding maps a name to a bare variable term.  Such
substitutions can never trip the self-referential-binding check. -/
def varValued : Subst → Bool
| .effectSub _ (.variable' _) => true
| .effectSub _ _ => false
| .entitySub _ (.quantified _) => true
| .entitySub _ _ => false

def allVarValued (su : Substitutions) : Bool := su.all varValued

/-- A state whose error map already holds an entry, used to instantiate the
short-circuit theorems. -/
def errState : InferState :=
  { lookupTable := []
    effects := []
    errors := [(0, buildErrorLeaf ("loc") ("boom"))]
    substitutions := []
    counter := 0
    location := "" }

/-- A clean state holding one recorded scheme at id 10, used to instantiate
the unknown-operator theorem. -/
def appState : InferState :=
  { lookupTable := []
    effects := [(10, toScheme (.concrete []))]
    errors := []
    substitutions := []
    counter := 0
    location := "" }

/-- A clean state where name occurrence 20 resolves to the state-variable
declaration 21, whose `read` scheme is recorded, used to instantiate the
name-reference theorem. -/
def nameState : InferState :=
  { lookupTable := [(20, some 21)]
    effects := [(21, toScheme (.concrete [⟨.read, .concrete [⟨"x", 21⟩]⟩]))]
    errors := []
    substitutions := []
    counter := 0
    location := "" }

/-- A clean state holding one recorded scheme at id 30, used to instantiate
the def/let forwarding theorem. -/
def defState : InferState :=
  { lookupTable := []
    effects := [(30, toScheme (.concrete [⟨.update, .concrete [⟨"z", 3⟩]⟩]))]
    substitutions := []
    errors := []
    counter := 0
    location := "" }

/- ----------------------------------------------------------------
Lemmas about the map model.
---------------------------------------------------------------- -/

theorem mget_mset_self {α : Type} (m : List (Nat × α)) (k : Nat) (v : α) :
    mget (mset m k v) k = some v := by
  induction m with
  | nil => simp [mset, mget]
  | cons p rest ih =>
    by_cases h : p.1 = k
    · simp [mset, mget, h]
    · simp [mset, mget, h, ih]

theorem mget_mset_ne {α : Type} (m : List (Nat × α)) (k k' : Nat) (v : α) (h : k ≠ k') :
    mget (mset m k v) k' = mget m k' := by
  induction m with
  | nil => simp [mset, mget, h]
  | cons p rest ih =>
    by_cases hp : p.1 = k
    · simp [mset, mget, hp, h]
    · by_cases hq : p.1 = k'
      · simp [mset, mget, hp, hq, Ne.symm h]
      · simp [mset, mget, hp, hq, ih]

theorem mget_of_nil_eq {α : Type} (m : List (Nat × α)) (h : m = []) (k : Nat) :
    mget m k = none := by
  subst h; rfl

theorem isEmpty_eq_nil {α : Type} (l : List α) (h : l.isEmpty = true) : l = [] := by
  cases l with
  | nil => rfl
  | cons a as => simp [List.isEmpty] at h

/- ----------------------------------------------------------------
Substitutions whose bindings all map to bare variables (the shape built by
`newInstance`) never make `applySubstitution` fail.
---------------------------------------------------------------- -/

theorem allVarValued_nil : allVarValued [] = true := rfl

theorem allVarValued_cons (b : Subst) (rest : Substitutions) :
    allVarValued (b :: rest) = (varValued b && allVarValued rest) := by
  simp [allVarValued]

theorem findEntitySub_vv (su : Substitutions) (h : allVarValued su = true) (n : String)
    (v : Entity) (hf : findEntitySub su n = some v) : ∃ m, v = .quantified m := by
  induction su with
  | nil => simp [findEntitySub] at hf
  | cons b rest ih =>
    rw [allVarValued_cons, Bool.and_eq_true] at h
    obtain ⟨hb, hrest⟩ := h
    match b with
    | .effectSub m w =>
        rw [findEntitySub] at hf
        exact ih hrest hf
    | .entitySub m w =>
        rw [findEntitySub] at hf
        by_cases hm : (m == n) = true
        · rw [if_pos hm] at hf
          cases w with
          | quantified q => exact ⟨q, by injection hf with h'; exact h'.symm⟩
          | concrete _ => simp [varValued] at hb
          | union _ => simp [varValued] at hb
        · rw [if_neg hm] at hf
          exact ih hrest hf

theorem findEffectSub_vv (su : Substitutions) (h : allVarValued su = true) (n : String)
    (v : Effect) (hf : findEffectSub su n = some v) : ∃ m, v = .variable' m := by
  induction su with
  | nil => simp [findEffectSub] at hf
  | cons b rest ih =>
    rw [allVarValued_cons, Bool.and_eq_true] at h
    obtain ⟨hb, hrest⟩ := h
    match b with
    | .entitySub m w =>
        rw [findEffectSub] at hf
        exact ih hrest hf
    | .effectSub m w =>
        rw [findEffectSub] at hf
        by_cases hm : (m == n) = true
        · rw [if_pos hm] at hf
          cases w with
          | variable' q => exact ⟨q, by injection hf with h'; exact h'.symm⟩
          | concrete _ => simp [varValued] at hb
          | arrow _ _ => simp [varValued] at hb
        · rw [if_neg hm] at hf
          exact ih hrest hf

mutual

theorem applySubEntity_vv (su : Substitutions) (h : allVarValued su = true) :
    (ent : Entity) → ∃ e', applySubEntity su ent = .right e'
| .concrete svs => ⟨.concrete svs, rfl⟩
| .quantified n => by
    cases hf : findEntitySub su n with
    | none => exact ⟨.quantified n, by simp [applySubEntity, hf]⟩
    | some v =>
      obtain ⟨m, rfl⟩ := findEntitySub_vv su h n v hf
      exact ⟨.quantified m, by simp [applySubEntity, hf]⟩
| .union es => by
    obtain ⟨es', hes⟩ := applySubEntityL_vv su h es
    exact ⟨.union es', by simp [applySubEntity, hes, Either.map]⟩

theorem applySubEntityL_vv (su : Substitutions) (h : allVarValued su = true) :
    (es : List Entity) → ∃ es', applySubEntityL su es = .right es'
| [] => ⟨[], rfl⟩
| e :: es => by
    obtain ⟨e', he⟩ := applySubEntity_vv su h e
    obtain ⟨es', hes⟩ := applySubEntityL_vv su h es
    exact ⟨e' :: es', by simp [applySubEntityL, he, hes, Either.map]⟩

end

theorem applySubComponents_vv (su : Substitutions) (h : allVarValued su = true) :
    (cs : List Component) → ∃ cs', applySubComponents su cs = .right cs'
| [] => ⟨[], rfl⟩
| c :: cs => by
    obtain ⟨e', he⟩ := applySubEntity_vv su h c.entity
    obtain ⟨cs', hcs⟩ := applySubComponents_vv su h cs
    exact ⟨⟨c.kind, e'⟩ :: cs', by simp [applySubComponents, he, hcs, Either.map]⟩

mutual

theorem applySubstitution_vv (su : Substitutions) (h : allVarValued su = true) :
    (e : Effect) → ∃ e', applySubstitution su e = .right e'
| .concrete cs => by
    obtain ⟨cs', hcs⟩ := applySubComponents_vv su h cs
    exact ⟨.concrete cs', by simp [applySubstitution, hcs, Either.map]⟩
| .variable' n => by
    cases hf : findEffectSub su n with
    | none => exact ⟨.variable' n, by simp [applySubstitution, hf]⟩
    | some v =>
      obtain ⟨m, rfl⟩ := findEffectSub_vv su h n v hf
      exact ⟨.variable' m, by simp [applySubstitution, hf]⟩
| .arrow ps r => by
    obtain ⟨ps', hps⟩ := applySubstitutionL_vv su h ps
    obtain ⟨r', hr⟩ := applySubstitution_vv su h r
    exact ⟨.arrow ps' r', by simp [applySubstitution, hps, hr, Either.map]⟩

theorem applySubstitutionL_vv (su : Substitutions) (h : allVarValued su = true) :
    (es : List Effect) → ∃ es', applySubstitutionL su es = .right es'
| [] => ⟨[], rfl⟩
| e :: es => by
    obtain ⟨e', he⟩ := applySubstitution_vv su h e
    obtain ⟨es', hes⟩ := applySubstitutionL_vv su h es
    exact ⟨e' :: es', by simp [applySubstitutionL, he, hes, Either.map]⟩

end

theorem rewriteSubst_vv (newer : Substitutions) (hn : allVarValued newer = true)
    (b : Subst) (hb : varValued b = true) :
    ∃ b', rewriteSubst newer b = .right b' ∧ varValued b' = true := by
  match b with
  | .effectSub n v =>
    cases v with
    | variable' m =>
      cases hf : findEffectSub newer m with
      | none =>
        exact ⟨.effectSub n (.variable' m), by simp [rewriteSubst, applySubstitution, hf, Either.map, varValued]⟩
      | some w =>
        obtain ⟨k, rfl⟩ := findEffectSub_vv newer hn m w hf
        exact ⟨.effectSub n (.variable' k), by simp [rewriteSubst, applySubstitution, hf, Either.map, varValued]⟩
    | concrete _ => simp [varValued] at hb
    | arrow _ _ => simp [varValued] at hb
  | .entitySub n v =>
    cases v with
    | quantified m =>
      cases hf : findEntitySub newer m with
      | none =>
        exact ⟨.entitySub n (.quantified m), by simp [rewriteSubst, applySubEntity, hf, Either.map, varValued]⟩
      | some w =>
        obtain ⟨k, rfl⟩ := findEntitySub_vv newer hn m w hf
        exact ⟨.entitySub n (.quantified k), by simp [rewriteSubst, applySubEntity, hf, Either.map, varValued]⟩
    | concrete _ => simp [varValued] at hb
    | union _ => simp [varValued] at hb

theorem rewriteAll_vv (newer : Substitutions) (hn : allVarValued newer = true)
    (older : Substitutions) (ho : allVarValued older = true) :
    ∃ rw', rewriteAll newer older = .right rw' ∧ allVarValued rw' = true := by
  induction older with
  | nil => exact ⟨[], rfl, rfl⟩
  | cons b rest ih =>
    rw [allVarValued_cons, Bool.and_eq_true] at ho
    obtain ⟨hb, hrest⟩ := ho
    obtain ⟨b', hb', hb'v⟩ := rewriteSubst_vv newer hn b hb
    obtain ⟨rest', hrest', hrest'v⟩ := ih hrest
    refine ⟨b' :: rest', ?_, ?_⟩
    · simp [rewriteAll, hb', hrest', Either.map]
    · rw [allVarValued_cons, hb'v, hrest'v]; rfl

theorem all_filter_of_all {α : Type} (p q : α → Bool) (l : List α) (h : l.all q = true) :
    (l.filter p).all q = true := by
  rw [List.all_eq_true] at *
  intro a ha
  exact h a (List.mem_filter.mp ha).1

theorem compose_vv (a b : Substitutions) (ha : allVarValued a = true)
    (hb : allVarValued b = true) :
    ∃ c, compose a b = .right c ∧ allVarValued c = true := by
  obtain ⟨rw', hrw, hrwv⟩ := rewriteAll_vv b hb a ha
  refine ⟨rw' ++ b.filter (fun x => !(rw'.any (fun c => bindsSameVar c x))), ?_, ?_⟩
  · simp [compose, hrw, Either.map]
  · rw [allVarValued, List.all_append]
    rw [allVarValued] at hrwv hb
    rw [hrwv, all_filter_of_all _ _ b hb]
    rfl


/- ----------------------------------------------------------------
`newInstance` never raises the internal fault: the fresh-renaming
substitutions it builds are variable-valued, so their composition and
application always succeed.  It only advances the fresh-variable counter.
---------------------------------------------------------------- -/

theorem freshSubsE_spec (ns : List String) (s : InferState) :
    (freshSubsE s ns).1.lookupTable = s.lookupTable ∧
    (freshSubsE s ns).1.effects = s.effects ∧
    (freshSubsE s ns).1.errors = s.errors ∧
    (freshSubsE s ns).1.substitutions = s.substitutions ∧
    (freshSubsE s ns).1.location = s.location ∧
    allVarValued (freshSubsE s ns).2 = true := by
  induction ns generalizing s with
  | nil => exact ⟨rfl, rfl, rfl, rfl, rfl, rfl⟩
  | cons n rest ih =>
    have h := ih ({ s with counter := s.counter + 1 })
    refine ⟨?_, ?_, ?_, ?_, ?_, ?_⟩
    · simpa [freshSubsE, freshVar] using h.1
    · simpa [freshSubsE, freshVar] using h.2.1
    · simpa [freshSubsE, freshVar] using h.2.2.1
    · simpa [freshSubsE, freshVar] using h.2.2.2.1
    · simpa [freshSubsE, freshVar] using h.2.2.2.2.1
    · simp only [freshSubsE, freshVar, allVarValued_cons, Bool.and_eq_true]
      exact ⟨rfl, h.2.2.2.2.2⟩

theorem freshSubsV_spec (ns : List String) (s : InferState) :
    (freshSubsV s ns).1.lookupTable = s.lookupTable ∧
    (freshSubsV s ns).1.effects = s.effects ∧
    (freshSubsV s ns).1.errors = s.errors ∧
    (freshSubsV s ns).1.substitutions = s.substitutions ∧
    (freshSubsV s ns).1.location = s.location ∧
    allVarValued (freshSubsV s ns).2 = true := by
  induction ns generalizing s with
  | nil => exact ⟨rfl, rfl, rfl, rfl, rfl, rfl⟩
  | cons n rest ih =>
    have h := ih ({ s with counter := s.counter + 1 })
    refine ⟨?_, ?_, ?_, ?_, ?_, ?_⟩
    · simpa [freshSubsV, freshVar] using h.1
    · simpa [freshSubsV, freshVar] using h.2.1
    · simpa [freshSubsV, freshVar] using h.2.2.1
    · simpa [freshSubsV, freshVar] using h.2.2.2.1
    · simpa [freshSubsV, freshVar] using h.2.2.2.2.1
    · simp only [freshSubsV, freshVar, allVarValued_cons, Bool.and_eq_true]
      exact ⟨rfl, h.2.2.2.2.2⟩

theorem newInstance_ok (s : InferState) (sch : EffectScheme) :
    ∃ s' e, newInstance s sch = .right (s', e) ∧
      s'.lookupTable = s.lookupTable ∧ s'.effects = s.effects ∧ s'.errors = s.errors ∧
      s'.substitutions = s.substitutions ∧ s'.location = s.location := by
  have hA := freshSubsE_spec sch.effectVariables s
  have hB := freshSubsV_spec sch.entityVariables (freshSubsE s sch.effectVariables).1
  obtain ⟨su, hc, hsu⟩ :=
    compose_vv (freshSubsE s sch.effectVariables).2
      (freshSubsV (freshSubsE s sch.effectVariables).1 sch.entityVariables).2
      hA.2.2.2.2.2 hB.2.2.2.2.2
  obtain ⟨eff, happ⟩ := applySubstitution_vv su hsu sch.effect
  refine ⟨(freshSubsV (freshSubsE s sch.effectVariables).1 sch.entityVariables).1, eff, ?_,
    ?_, ?_, ?_, ?_, ?_⟩
  · simp [newInstance, hc, happ]
  · rw [hB.1, hA.1]
  · rw [hB.2.1, hA.2.1]
  · rw [hB.2.2.1, hA.2.2.1]
  · rw [hB.2.2.2.1, hA.2.2.2.1]
  · rw [hB.2.2.2.2.1, hA.2.2.2.2.1]

/- ----------------------------------------------------------------
In an error-free state whose argument results are all recorded, the
argument-processing loop of `exitApp` succeeds and changes nothing but the
fresh-variable counter.
---------------------------------------------------------------- -/

theorem exitAppArgs_ok (args : List QuintEx) (s : InferState)
    (h1 : s.errors = [])
    (h2 : ∀ a ∈ args, (mget s.effects a.exid).isSome = true) :
    ∃ s' rs, exitAppArgs s args = .right (s', rs) ∧
      s'.lookupTable = s.lookupTable ∧ s'.effects = s.effects ∧ s'.errors = s.errors ∧
      s'.substitutions = s.substitutions ∧ s'.location = s.location := by
  induction args generalizing s with
  | nil => exact ⟨s, [], rfl, rfl, rfl, rfl, rfl, rfl⟩
  | cons a rest ih =>
    have herr : mget s.errors a.exid = none := mget_of_nil_eq s.errors h1 a.exid
    have hsome : (mget s.effects a.exid).isSome = true := h2 a (List.mem_cons_self a rest)
    obtain ⟨sch, hsch⟩ := Option.isSome_iff_exists.mp hsome
    obtain ⟨s1, eff, hni, hl, hef, her, hsub, hloc⟩ := newInstance_ok s sch
    obtain ⟨s', rs, hrec, hl2, hef2, her2, hsub2, hloc2⟩ :=
      ih s1 (her.trans h1) (fun b hb => by rw [hef]; exact h2 b (List.mem_cons_of_mem a hb))
    refine ⟨s', .right eff :: rs, ?_, hl2.trans hl, hef2.trans hef, her2.trans her,
      hsub2.trans hsub, hloc2.trans hloc⟩
    simp [exitAppArgs, fetchResult, herr, hsch, hni, hrec]


/- ----------------------------------------------------------------
The claims.
---------------------------------------------------------------- -/

/-- C2: once the running error map is non-empty, the walker skips rule
application for operator-application, let and lambda-exit nodes (the state
is returned unchanged), while the literal, const-declaration and
var-declaration rules still execute and record their effects. -/
theorem errorShortCircuit (s : InferState) (h : s.errors.isEmpty = false)
    (appId : Nat) (op : String) (args : List QuintEx) (letId : Nat) (letBody : QuintEx)
    (lamId : Nat) (ps : List QuintLambdaParam) (lamBody : QuintEx)
    (litId : Nat) (cid : Nat) (t : QuintType) (vid : Nat) (vn : String) :
    exitApp s appId op args = .right s ∧
    exitLet s letId letBody = .right s ∧
    exitLambda s lamId ps lamBody = .right s ∧
    (mget (exitLiteral s litId).effects litId).isSome = true ∧
    (mget (exitConst s cid t).effects cid).isSome = true ∧
    (mget (exitVar s vid vn).effects vid).isSome = true := by
  refine ⟨?_, ?_, ?_, ?_, ?_, ?_⟩
  · simp [exitApp, h]
  · simp [exitLet, h]
  · simp [exitLambda, h]
  · simp [exitLiteral, addToResults, mget_mset_self]
  · cases t <;> simp [exitConst, addToResults, mget_mset_self]
  · simp [exitVar, addToResults, mget_mset_self]

theorem errorShortCircuit_witness :
    exitApp errState 1 ("f") [] = .right errState ∧
    exitLet errState 2 (.bool 3 true) = .right errState ∧
    exitLambda errState 4 [] (.bool 3 true) = .right errState ∧
    (mget (exitLiteral errState 5).effects 5).isSome = true ∧
    (mget (exitConst errState 6 (.scalar ("int"))).effects 6).isSome = true ∧
    (mget (exitVar errState 7 ("x")).effects 7).isSome = true :=
  errorShortCircuit errState rfl 1 ("f") [] 2 (.bool 3 true) 4 [] (.bool 3 true)
    5 6 (.scalar ("int")) 7 ("x")

/-- C5: every literal node — boolean, integer or string — is assigned the
Pure effect: the concrete effect with an empty component list, containing no
read and no update component. -/
theorem literalsArePure (s : InferState) (i : Nat) (b : Bool) (n : Int) (st : String) :
    okE (walkExpression s (.bool i b)) = true ∧
    mget (effsOf (walkExpression s (.bool i b))) i = some (toScheme (.concrete [])) ∧
    okE (walkExpression s (.int i n)) = true ∧
    mget (effsOf (walkExpression s (.int i n))) i = some (toScheme (.concrete [])) ∧
    okE (walkExpression s (.str i st)) = true ∧
    mget (effsOf (walkExpression s (.str i st))) i = some (toScheme (.concrete [])) ∧
    (toScheme (Effect.concrete [])).effect = .concrete [] := by
  refine ⟨?_, ?_, ?_, ?_, ?_, ?_, rfl⟩ <;>
    simp [walkExpression, okE, Either.isRight, effsOf, exitLiteral, addToResults, mget_mset_self]

/-- C7: when the body expression's effect is recorded and the run is still
error-free, the operator-definition rule and the let rule record exactly the
body's effect for the definition node and for the let node. -/
theorem defAndLetForwardBodyEffect (s : InferState) (defId letId : Nat) (body : QuintEx)
    (sch : EffectScheme) (h1 : s.errors = [])
    (h2 : mget s.effects body.exid = some sch) :
    okE (exitOpDef s defId body) = true ∧
    mget (effsOf (exitOpDef s defId body)) defId = some sch ∧
    okE (exitLet s letId body) = true ∧
    mget (effsOf (exitLet s letId body)) letId = some sch := by
  have herr : mget s.errors body.exid = none := mget_of_nil_eq s.errors h1 body.exid
  have hempty : s.errors.isEmpty = true := by rw [h1]; rfl
  refine ⟨?_, ?_, ?_, ?_⟩ <;>
    simp [exitOpDef, exitLet, hempty, fetchResult, herr, h2, okE, Either.isRight,
      Either.mapLeft, effsOf, addToResults, mget_mset_self]

theorem defAndLetForwardBodyEffect_witness :
    okE (exitOpDef defState 31 (.bool 30 true)) = true ∧
    mget (effsOf (exitOpDef defState 31 (.bool 30 true))) 31 =
      some (toScheme (.concrete [⟨.update, .concrete [⟨"z", 3⟩]⟩])) ∧
    okE (exitLet defState 32 (.bool 30 true)) = true ∧
    mget (effsOf (exitLet defState 32 (.bool 30 true))) 32 =
      some (toScheme (.concrete [⟨.update, .concrete [⟨"z", 3⟩]⟩])) :=
  defAndLetForwardBodyEffect defState 31 32 (.bool 30 true)
    (toScheme (.concrete [⟨.update, .concrete [⟨"z", 3⟩]⟩])) rfl rfl

/-- C8: fetching a result for an identity absent from both result maps
signals the non-recoverable fault — a `Fatal`, a type distinct from the
`ErrorTree` taxonomy — and never defaults: no error entry and no effect is
produced for that identity. -/
theorem fetchMissingIsFatal (s : InferState) (id : Nat)
    (h1 : mget s.errors id = none) (h2 : mget s.effects id = none) :
    fetchResult s id =
      .left (.fatal ("Could not find any result for id " ++ toString id ++ " while " ++
        s.location)) ∧
    (fetchResult s id).isRight = false := by
  constructor
  · simp [fetchResult, h1, h2]
  · simp [fetchResult, h1, h2, Either.isRight]

theorem fetchMissingIsFatal_witness :
    fetchResult (initState []) 5 =
      .left (.fatal ("Could not find any result for id " ++ toString 5 ++ " while " ++
        (initState []).location)) ∧
    (fetchResult (initState []) 5).isRight = false :=
  fetchMissingIsFatal (initState []) 5 rfl rfl

/-- C10: once the running error map is non-empty, the name rule and the
operator-definition rule are also skipped — the state is returned unchanged,
so a node not yet present in either result map stays absent from both. -/
theorem errorSkipsNameAndOpDef (s : InferState) (h : s.errors.isEmpty = false)
    (nameId : Nat) (nm : String) (defId : Nat) (body : QuintEx) :
    exitName s nameId nm = .right s ∧
    exitOpDef s defId body = .right s ∧
    (mget s.effects nameId = none → mget (effsOf (exitName s nameId nm)) nameId = none) ∧
    (mget s.errors nameId = none → mget (errsOf (exitName s nameId nm)) nameId = none) ∧
    (mget s.effects defId = none → mget (effsOf (exitOpDef s defId body)) defId = none) ∧
    (mget s.errors defId = none → mget (errsOf (exitOpDef s defId body)) defId = none) := by
  refine ⟨by simp [exitName, h], by simp [exitOpDef, h], ?_, ?_, ?_, ?_⟩ <;>
    intro hnone <;> simp [exitName, exitOpDef, h, effsOf, errsOf, hnone]

theorem errorSkipsNameAndOpDef_witness :
    exitName errState 11 ("q") = .right errState ∧
    exitOpDef errState 12 (.bool 13 true) = .right errState ∧
    (mget errState.effects 11 = none → mget (effsOf (exitName errState 11 ("q"))) 11 = none) ∧
    (mget errState.errors 11 = none → mget (errsOf (exitName errState 11 ("q"))) 11 = none) ∧
    (mget errState.effects 12 = none → mget (effsOf (exitOpDef errState 12 (.bool 13 true))) 12 = none) ∧
    (mget errState.errors 12 = none → mget (errsOf (exitOpDef errState 12 (.bool 13 true))) 12 = none) :=
  errorSkipsNameAndOpDef errState rfl 11 ("q") 12 (.bool 13 true)

/-- C1 (amended): the domains of the two result maps need not be disjoint —
whenever an error is recorded for an identity that already has a success
entry, that identity appears in both maps afterwards, because
`addToResults` never removes an entry from the other map. -/
theorem errorKeepsExistingSuccess (s : InferState) (id : Nat) (e : Err)
    (h : (mget s.effects id).isSome = true) :
    (mget (addToResults s id (.left e)).effects id).isSome = true ∧
    (mget (addToResults s id (.left e)).errors id).isSome = true := by
  constructor
  · simpa [addToResults] using h
  · simp [addToResults, mget_mset_self]

theorem errorKeepsExistingSuccess_witness :
    (mget (addToResults appState 10 (.left (.one (buildErrorLeaf ("l") ("m"))))).effects 10).isSome
      = true ∧
    (mget (addToResults appState 10 (.left (.one (buildErrorLeaf ("l") ("m"))))).errors 10).isSome
      = true :=
  errorKeepsExistingSuccess appState 10 (.one (buildErrorLeaf ("l") ("m"))) rfl

/-- C1 (counterexample): a concrete run of `inferEffects` on which the two
returned maps are not disjoint — identity 8, the body of the second lambda,
ends up in the error map and in the success map at once. -/
theorem resultMapsOverlap :
    cexRun.isRight = true ∧
    (mget cexResult.1 8).isSome = true ∧
    (mget cexResult.2 8).isSome = true :=
  ⟨rfl, rfl, rfl⟩


/-- C6: a name-reference node whose lookup entry resolves to a recorded
state-variable declaration (and whose name is not a builtin) is assigned the
concrete effect with exactly one `read` component over the singleton entity
of that variable and no `update` component. -/
theorem nameOfVarReadsIt (s : InferState) (i r : Nat) (nm v : String)
    (h1 : s.errors = [])
    (h2 : lookupSig nm = none)
    (h3 : mget s.lookupTable i = some (some r))
    (h3b : r ≠ 0)
    (h4 : mget s.effects r = some (toScheme (.concrete [⟨.read, .concrete [⟨v, r⟩]⟩]))) :
    okE (exitName s i nm) = true ∧
    mget (effsOf (exitName s i nm)) i =
      some (toScheme (.concrete [⟨.read, .concrete [⟨v, r⟩]⟩])) ∧
    errsOf (exitName s i nm) = s.errors := by
  have hempty : s.errors.isEmpty = true := by rw [h1]; rfl
  have herr : mget s.errors r = none := mget_of_nil_eq s.errors h1 r
  have hz : (r == 0) = false := by simpa using h3b
  have hni : newInstance s (toScheme (.concrete [⟨.read, .concrete [⟨v, r⟩]⟩])) =
      .right (s, .concrete [⟨.read, .concrete [⟨v, r⟩]⟩]) := rfl
  refine ⟨?_, ?_, ?_⟩ <;>
    simp [exitName, hempty, effectForName, h2, h3, hz, fetchResult, herr, h4, hni,
      okE, Either.isRight, Either.mapLeft, Either.map, effsOf, errsOf, addToResults,
      mget_mset_self]

theorem nameOfVarReadsIt_witness :
    okE (exitName nameState 20 ("x")) = true ∧
    mget (effsOf (exitName nameState 20 ("x"))) 20 =
      some (toScheme (.concrete [⟨.read, .concrete [⟨"x", 21⟩]⟩])) ∧
    errsOf (exitName nameState 20 ("x")) = nameState.errors :=
  nameOfVarReadsIt nameState 20 21 ("x") ("x") rfl rfl rfl (by decide) rfl

/-- C3: an application of an operator name with no builtin signature and no
lookup-table entry records exactly one error, at the application node's
identity, and adds nothing to the success map. -/
theorem unknownNameAppSingleError (s : InferState) (id : Nat) (op : String)
    (args : List QuintEx)
    (h1 : s.errors = [])
    (h2 : lookupSig op = none)
    (h3 : mget s.lookupTable id = none)
    (h4 : ∀ a ∈ args, (mget s.effects a.exid).isSome = true) :
    okE (exitApp s id op args) = true ∧
    effsOf (exitApp s id op args) = s.effects ∧
    (errsOf (exitApp s id op args)).length = 1 ∧
    (mget (errsOf (exitApp s id op args)) id).isSome = true := by
  have hempty : s.errors.isEmpty = true := by rw [h1]; rfl
  obtain ⟨s1, rs, hargs, hl, hef, her, hsub, hloc⟩ :=
    exitAppArgs_ok args
      { s with location := "Trying to infer effect for operator application in " ++
          expressionToString (.app id op args) }
      h1 (fun a ha => h4 a ha)
  have her' : s1.errors = [] := her.trans h1
  have hl' : s1.lookupTable = s.lookupTable := hl
  have hef' : s1.effects = s.effects := hef
  refine ⟨?_, ?_, ?_, ?_⟩ <;>
    simp [exitApp, hempty, hargs, okE, Either.isRight, effsOf, errsOf, effectForName,
      h2, hl', h3, freshVar, Either.mapLeft, addToResults, her', hef', mset, mget]

theorem unknownNameAppSingleError_witness :
    okE (exitApp appState 11 ("mystery") [.bool 10 true]) = true ∧
    effsOf (exitApp appState 11 ("mystery") [.bool 10 true]) = appState.effects ∧
    (errsOf (exitApp appState 11 ("mystery") [.bool 10 true])).length = 1 ∧
    (mget (errsOf (exitApp appState 11 ("mystery") [.bool 10 true])) 11).isSome = true :=
  unknownNameAppSingleError appState 11 ("mystery") [.bool 10 true] rfl rfl rfl
    (by decide)

/-- C4: when the lambda pipeline resolves the lambda's effect to an arrow
whose result component is itself an arrow, `exitLambda` records the illegal
operator-valued-result error at the lambda's body node identity, and the
lambda node's own error entry is left untouched. -/
theorem lambdaArrowResultErrorAtBody (s s2 : InferState) (lamId : Nat)
    (ps : List QuintLambdaParam) (body : QuintEx) (aps bps : List Effect) (br : Effect)
    (h1 : s.errors.isEmpty = true)
    (h2 : lambdaResolvedResult s ps body.exid = .right (s2, .right (.arrow aps (.arrow bps br))))
    (h3 : lamId ≠ body.exid) :
    okE (exitLambda s lamId ps body) = true ∧
    mget (errsOf (exitLambda s lamId ps body)) body.exid =
      some (buildErrorTree s2.location
        (.one (buildErrorLeaf s2.location ("Result cannot be an opperator")))) ∧
    mget (errsOf (exitLambda s lamId ps body)) lamId = mget s2.errors lamId := by
  have hrun : exitLambda s lamId ps body =
      .right (addToResults
        (addToResults s2 body.exid
          (.left (.one (buildErrorLeaf s2.location ("Result cannot be an opperator")))))
        lamId
        (.right { effect := .arrow aps (.arrow bps br),
                  effectVariables := (nonFreeNames aps).1,
                  entityVariables := (nonFreeNames aps).2 })) := by
    simp [exitLambda, h1, h2, isArrow]
  refine ⟨by rw [hrun]; rfl, ?_, ?_⟩
  · rw [hrun]; simp [errsOf, addToResults, mget_mset_self]
  · rw [hrun]
    simp only [errsOf, addToResults]
    exact mget_mset_ne s2.errors body.exid lamId _ (fun hh => h3 hh.symm)

theorem lambdaArrowResultErrorAtBody_witness :
    okE (exitLambda lamPre 6 [⟨7, "y"⟩] (.name 8 ("g"))) = true ∧
    mget (errsOf (exitLambda lamPre 6 [⟨7, "y"⟩] (.name 8 ("g")))) 8 =
      some (buildErrorTree lamS2.location
        (.one (buildErrorLeaf lamS2.location ("Result cannot be an opperator")))) ∧
    mget (errsOf (exitLambda lamPre 6 [⟨7, "y"⟩] (.name 8 ("g")))) 6 = mget lamS2.errors 6 :=
  lambdaArrowResultErrorAtBody lamPre lamS2 6 [⟨7, "y"⟩] (.name 8 ("g")) lamAps lamBps lamBr
    rfl rfl (by decide)

/-- C9: in the illegal operator-valued-result case the walker nevertheless
continues and records a success scheme for the lambda node itself, so the
lambda node appears in the success map while its body node carries the
error. -/
theorem lambdaArrowResultStillSucceeds (s s2 : InferState) (lamId : Nat)
    (ps : List QuintLambdaParam) (body : QuintEx) (aps bps : List Effect) (br : Effect)
    (h1 : s.errors.isEmpty = true)
    (h2 : lambdaResolvedResult s ps body.exid = .right (s2, .right (.arrow aps (.arrow bps br)))) :
    okE (exitLambda s lamId ps body) = true ∧
    (mget (effsOf (exitLambda s lamId ps body)) lamId).isSome = true ∧
    (mget (errsOf (exitLambda s lamId ps body)) body.exid).isSome = true := by
  have hrun : exitLambda s lamId ps body =
      .right (addToResults
        (addToResults s2 body.exid
          (.left (.one (buildErrorLeaf s2.location ("Result cannot be an opperator")))))
        lamId
        (.right { effect := .arrow aps (.arrow bps br),
                  effectVariables := (nonFreeNames aps).1,
                  entityVariables := (nonFreeNames aps).2 })) := by
    simp [exitLambda, h1, h2, isArrow]
  refine ⟨by rw [hrun]; rfl, ?_, ?_⟩
  · rw [hrun]; simp [effsOf, addToResults, mget_mset_self]
  · rw [hrun]; simp [errsOf, addToResults, mget_mset_self]

theorem lambdaArrowResultStillSucceeds_witness :
    okE (exitLambda lamPre 6 [⟨7, "y"⟩] (.name 8 ("g"))) = true ∧
    (mget (effsOf (exitLambda lamPre 6 [⟨7, "y"⟩] (.name 8 ("g")))) 6).isSome = true ∧
    (mget (errsOf (exitLambda lamPre 6 [⟨7, "y"⟩] (.name 8 ("g")))) 8).isSome = true :=
  lambdaArrowResultStillSucceeds lamPre lamS2 6 [⟨7, "y"⟩] (.name 8 ("g")) lamAps lamBps lamBr
    rfl rfl

end QuintEffects
